import Mathlib

/-!
Shallow embedding of the SusSweatShop automation bot (Python sources under
`src/`), covering the channel reader with its dedup ledger
(`src/discord_fetcher.py`), the pick grader (`src/sports_results.py`), the
daily recap aggregation (`src/recap_generator.py`), the tweet composition and
trimming logic (`src/ai_writer.py`), and the regular-posts orchestration
control flow (`src/main.py`).

Free-form text is modelled as `List Char`; Python `a in b` substring tests
become list-infix tests; network calls and AI/random outputs are abstracted
as explicit parameters so that every definition stays executable.
-/

set_option maxRecDepth 10000

namespace SusSweatShop

/-- Texts (Python strings) are modelled as lists of characters. -/
abbrev Text := List Char

/-- Python `needle in hay` substring containment on strings. -/
def containsSub (hay needle : Text) : Bool := decide (needle <:+: hay)

/-- Python `str.lower()` (faithful on the ASCII texts the bot handles). -/
def toLowerText (t : Text) : Text := t.map Char.toLower

/-- Python `str.strip()`: drop leading and trailing whitespace. -/
def stripText (t : Text) : Text :=
  ((t.dropWhile Char.isWhitespace).reverse.dropWhile Char.isWhitespace).reverse

/-- A Discord message as consumed by `DiscordFetcher.extract_picks`: only the
fields that the pick-extraction logic inspects (`content`, `id`,
`author.bot`).  Attachments/embeds/links are dropped: no claim inspects
them. -/
structure Message where
  id : Nat
  content : Text
  author_bot : Bool
deriving DecidableEq

/-- A pick extracted from a message (`content` is the stripped message text,
`id` the source message id used as the dedup key).  Image and link fields of
the Python dict are dropped: no claim inspects them. -/
structure Pick where
  id : Nat
  content : Text
deriving DecidableEq

/-- The betting-indicator keyword list of `DiscordFetcher._is_valid_pick`,
verbatim in source order (note it contains "+", "-", "vs." and "potd"). -/
def betting_keywords : List Text :=
  (["over", "under", "ml", "moneyline", "+", "-",
    "spread", "pts", "points", "rebounds", "assists",
    "vs", "vs.", "@", "parlay", "straight", "pick",
    "lock", "potd", "play", "bet", "unit", "units"]).map String.toList

/-- `DiscordFetcher._is_valid_pick`: a message content counts as a pick when
it contains `+N` or `-N` for some `N` in `range(100, 500)` (checked on the
raw content), or its lowercase form contains one of `betting_keywords`. -/
def is_valid_pick (content : Text) : Bool :=
  let content_lower := toLowerText content
  let has_odds := (List.range' 100 400).any (fun i =>
    containsSub content ('+' :: (toString i).toList) ||
    containsSub content ('-' :: (toString i).toList))
  let has_keyword := betting_keywords.any (fun kw => containsSub content_lower kw)
  has_odds || has_keyword

/-- One step of `DiscordFetcher.extract_picks`: strip the content, skip empty
or bot-authored messages, keep the message when `is_valid_pick` accepts it. -/
def extract_pick? (msg : Message) : Option Pick :=
  let content := stripText msg.content
  if content = [] ∨ msg.author_bot then none
  else if is_valid_pick content then some ⟨msg.id, content⟩
  else none

/-- `DiscordFetcher.extract_picks`: picks of the messages, in message order. -/
def extract_picks (messages : List Message) : List Pick :=
  messages.filterMap extract_pick?

/-- `DiscordFetcher.get_recent_messages`: the channel is modelled as the full
message list, newest first (as the Discord API returns it); the call fetches
the first `min limit 100` messages (the API caps `limit` at 100). -/
def get_recent_messages (channel : List Message) (limit : Nat) : List Message :=
  channel.take (min limit 100)

/-- `DiscordFetcher.get_unposted_picks`: fetch the 20 most recent messages,
extract picks, drop those whose id is in the loaded ledger, return the first
`limit`.  (The image-download side effects are irrelevant to the returned
list and are omitted.) -/
def get_unposted_picks (channel : List Message) (posted_ids : List Nat)
    (limit : Nat) : List Pick :=
  let messages := get_recent_messages channel 20
  let picks := extract_picks messages
  let unposted := picks.filter (fun p => !(posted_ids.contains p.id))
  unposted.take limit

/-- `DiscordFetcher._load_posted_picks` returns a Python `set` built from the
`posted_ids` list stored in the ledger file, and `mark_as_posted` immediately
linearizes it with `list(...)`.  Python set iteration order is unspecified
(string hashing is randomized), so the load is modelled by a relation: a
valid load result is any duplicate-free list with exactly the stored ids. -/
abbrev validLoad (stored loaded : List Nat) : Prop :=
  loaded.Nodup ∧ (∀ x ∈ loaded, x ∈ stored) ∧ (∀ x ∈ stored, x ∈ loaded)

/-- Python `l[-n:]`: the last `n` elements of a list. -/
def lastN (n : Nat) (l : List α) : List α := l.drop (l.length - n)

/-- `DiscordFetcher.mark_as_posted`, applied to the linearized load result:
append the new id and keep only the last 100 entries; the result is what gets
persisted as the new `posted_ids`. -/
def mark_as_posted (loaded : List Nat) (pick_id : Nat) : List Nat :=
  lastN 100 (loaded ++ [pick_id])

/-! ### Result grader (`src/sports_results.py`) -/

/-- One competitor as parsed by `SportsResults._parse_game` (the
`abbreviation` and `winner` fields are never read by the grading logic and
are dropped). -/
structure Team where
  name : Text
  score : Nat
deriving DecidableEq

/-- A game as parsed by `SportsResults._parse_game`.  Its `total_score` field
is always the sum of the two scores, so it is modelled as a derived
function.  The `id`/`name`/`date`/`status` strings are never read by the
grading logic and are dropped. -/
structure Game where
  completed : Bool
  home_team : Team
  away_team : Team
deriving DecidableEq

/-- `total_score` as computed by `_parse_game`: home score plus away score. -/
def Game.total_score (g : Game) : Nat := g.home_team.score + g.away_team.score

/-- The four result strings produced by `SportsResults.grade_pick`. -/
inductive BetResult
  | WIN
  | LOSS
  | PUSH
  | PENDING
deriving DecidableEq

/-- The three confidence strings produced by `SportsResults.grade_pick`. -/
inductive Confidence
  | low
  | medium
  | high
deriving DecidableEq

/-- The grading outcome dict of `SportsResults.grade_pick` (the `pick` echo,
the human-readable `reason` string and the `game` echo are dropped: no claim
inspects them). -/
structure GradeResult where
  graded : Bool
  result : BetResult
  confidence : Confidence
deriving DecidableEq

/-- `SportsResults.team_aliases`, verbatim in source (insertion) order. -/
def team_aliases : List (Text × Text) :=
  ([("lakers", "Los Angeles Lakers"), ("celtics", "Boston Celtics"),
    ("warriors", "Golden State Warriors"), ("nets", "Brooklyn Nets"),
    ("knicks", "New York Knicks"), ("heat", "Miami Heat"),
    ("bulls", "Chicago Bulls"), ("cavs", "Cleveland Cavaliers"),
    ("cavaliers", "Cleveland Cavaliers"), ("sixers", "Philadelphia 76ers"),
    ("76ers", "Philadelphia 76ers"), ("bucks", "Milwaukee Bucks"),
    ("suns", "Phoenix Suns"), ("mavs", "Dallas Mavericks"),
    ("mavericks", "Dallas Mavericks"), ("clippers", "LA Clippers"),
    ("nuggets", "Denver Nuggets"), ("grizzlies", "Memphis Grizzlies"),
    ("kings", "Sacramento Kings"), ("hawks", "Atlanta Hawks"),
    ("chiefs", "Kansas City Chiefs"), ("eagles", "Philadelphia Eagles"),
    ("cowboys", "Dallas Cowboys"), ("49ers", "San Francisco 49ers"),
    ("bills", "Buffalo Bills"), ("ravens", "Baltimore Ravens"),
    ("bengals", "Cincinnati Bengals"), ("lions", "Detroit Lions"),
    ("packers", "Green Bay Packers"), ("dolphins", "Miami Dolphins"),
    ("jets", "New York Jets"), ("patriots", "New England Patriots")]
    : List (String × String)).map (fun p => (p.1.toList, p.2.toList))

/-- The side-determination loop of `SportsResults._grade_moneyline`: scan
`team_aliases` for the first alias contained in the lowercased pick text;
for that alias alone, test it against the home team name, then the away team
name, and `break` (a later alias is never consulted).  Returns
`(picked_home, picked_away)`. -/
def pickedSide (pick_lower : Text) (home away : Team) : Bool × Bool :=
  match team_aliases.find? (fun al => containsSub pick_lower al.1) with
  | none => (false, false)
  | some al =>
      if containsSub (toLowerText home.name) al.1 then (true, false)
      else if containsSub (toLowerText away.name) al.1 then (false, true)
      else (false, false)

/-- `SportsResults._grade_moneyline`: if no side could be determined, the
pick stays `PENDING`/ungraded; otherwise `WIN` exactly when the home side
was picked and the home team strictly outscored the away team, or the away
side was picked and the home team did not strictly outscore the away team. -/
def grade_moneyline (pick_content : Text) (game : Game) : GradeResult :=
  let pick_lower := toLowerText pick_content
  let side := pickedSide pick_lower game.home_team game.away_team
  if !side.1 && !side.2 then ⟨false, .PENDING, .low⟩
  else
    let home_won : Bool := game.home_team.score > game.away_team.score
    if (side.1 && home_won) || (side.2 && !home_won) then ⟨true, .WIN, .high⟩
    else ⟨true, .LOSS, .high⟩

/-- Digit run to a natural number (e.g. `['2','1','5'] ↦ 215`). -/
def parseDigits (ds : Text) : Nat :=
  ds.foldl (fun n c => 10 * n + (c.toNat - '0'.toNat)) 0

/-- Value of the decimal literal `intDs "." fracDs` as a rational (Python's
`float(...)` on the matched group, modelled exactly). -/
def ratOfParts (intDs fracDs : Text) : ℚ :=
  (parseDigits intDs : ℚ) + (parseDigits fracDs : ℚ) / (10 : ℚ) ^ fracDs.length

/-- Characters matched by the regex class `\s` (ASCII part; the bot's pick
texts are ASCII). -/
def isRegexSpace (c : Char) : Bool :=
  c = ' ' || c = '\t' || c = '\n' || c = '\r' || c = '\x0b' || c = '\x0c'

/-- Tail of the regex `(over|under)\s*(\d+\.?\d*)` after the direction word:
skip spaces, require at least one digit, then optionally a dot and further
digits; returns the direction (`true` = over) with the parsed line. -/
def matchNumberAfter (dir : Bool) (rest : Text) : Option (Bool × ℚ) :=
  let rest1 := rest.dropWhile isRegexSpace
  let intDs := rest1.takeWhile Char.isDigit
  if intDs = [] then none
  else
    match rest1.drop intDs.length with
    | '.' :: r3 => some (dir, ratOfParts intDs (r3.takeWhile Char.isDigit))
    | _ => some (dir, ratOfParts intDs [])

/-- `re.search(r'(over|under)\s*(\d+\.?\d*)', pick_lower)` of
`SportsResults._grade_total`: leftmost position where the direction word is
followed (after optional spaces) by a number. -/
def extractTotal : Text → Option (Bool × ℚ)
  | [] => none
  | c :: cs =>
      match (if ("over".toList).isPrefixOf (c :: cs) then
               matchNumberAfter true ((c :: cs).drop 4)
             else if ("under".toList).isPrefixOf (c :: cs) then
               matchNumberAfter false ((c :: cs).drop 5)
             else none) with
      | some r => some r
      | none => extractTotal cs

/-- `SportsResults._grade_total`: extract direction and line; `PUSH` when the
game's total equals the line, otherwise `WIN` exactly when the total beats
the line in the picked direction; extraction failure stays
`PENDING`/ungraded. -/
def grade_total (pick_content : Text) (game : Game) : GradeResult :=
  let pick_lower := toLowerText pick_content
  match extractTotal pick_lower with
  | none => ⟨false, .PENDING, .low⟩
  | some (dir, line) =>
      let actual : ℚ := (game.total_score : ℚ)
      let won : Bool := if dir then actual > line else actual < line
      if actual = line then ⟨true, .PUSH, .high⟩
      else if won then ⟨true, .WIN, .high⟩
      else ⟨true, .LOSS, .high⟩

/-- `SportsResults._grade_spread`: always `PENDING`, ungraded, medium
confidence ("requires manual verification"). -/
def grade_spread (_pick_content : Text) (_game : Game) : GradeResult :=
  ⟨false, .PENDING, .medium⟩

/-- `re.search(r'[+-]\d+\.?\d*', pick_content)` succeeds iff some `+` or `-`
is immediately followed by a digit. -/
def hasSignedNumber : Text → Bool
  | [] => false
  | [_] => false
  | c1 :: c2 :: rest =>
      ((c1 = '+' || c1 = '-') && c2.isDigit) || hasSignedNumber (c2 :: rest)

/-- `SportsResults.grade_pick`.  The game argument is the already-located
game (`None` models `find_game_for_pick` failing, which in the source leaves
the initial `PENDING` dict).  Bet-type dispatch in source precedence:
moneyline keywords, then over/under, then a signed number (spread), else
undetermined. -/
def grade_pick (pick_content : Text) (game? : Option Game) : GradeResult :=
  match game? with
  | none => ⟨false, .PENDING, .low⟩
  | some game =>
      if !game.completed then ⟨false, .PENDING, .low⟩
      else
        let pick_lower := toLowerText pick_content
        if containsSub pick_lower ("ml".toList) ||
           containsSub pick_lower ("moneyline".toList) then
          grade_moneyline pick_content game
        else if containsSub pick_lower ("over".toList) ||
                containsSub pick_lower ("under".toList) then
          grade_total pick_content game
        else if hasSignedNumber pick_content then
          grade_spread pick_content game
        else ⟨false, .PENDING, .low⟩

/-! ### Daily recap aggregation (`src/recap_generator.py`) -/

/-- The counters of the results dict built by
`RecapGenerator.get_todays_results` (the `date` string and per-pick entries
are dropped: the claim is about the counters). -/
structure DailyResults where
  wins : Nat
  losses : Nat
  pushes : Nat
  pending : Nat
  total_picks : Nat
deriving DecidableEq

/-- The counter update of one loop iteration of `get_todays_results`: `WIN`,
`LOSS` and `PUSH` bump their counter, anything else bumps `pending`. -/
def tallyStep (acc : DailyResults) (r : BetResult) : DailyResults :=
  match r with
  | .WIN => ⟨acc.wins + 1, acc.losses, acc.pushes, acc.pending, acc.total_picks⟩
  | .LOSS => ⟨acc.wins, acc.losses + 1, acc.pushes, acc.pending, acc.total_picks⟩
  | .PUSH => ⟨acc.wins, acc.losses, acc.pushes + 1, acc.pending, acc.total_picks⟩
  | .PENDING => ⟨acc.wins, acc.losses, acc.pushes, acc.pending + 1, acc.total_picks⟩

/-- `RecapGenerator.get_todays_results`: grade each of today's picks with
`grade_pick` and count outcomes; `total_picks` is set to `len(picks)` before
the loop.  The network game lookup of `find_game_for_pick` is abstracted as
the `lookup` parameter. -/
def get_todays_results (picks : List Pick) (lookup : Text → Option Game) :
    DailyResults :=
  picks.foldl
    (fun acc p => tallyStep acc (grade_pick p.content (lookup p.content)).result)
    ⟨0, 0, 0, 0, picks.length⟩

/-! ### Tweet composition and trimming (`src/ai_writer.py`) -/

/-- `DISCORD_INVITE_LINK` from `config/settings.py`. -/
def DISCORD_INVITE_LINK : Text := "discord.gg/ZNwbqrCGqN".toList

/-- The fixed short hashtag string of `AIWriter._trim_tweet`. -/
def short_hashtags : Text := "#SportsBetting #FreePicks".toList

/-- The fixed short promo of `AIWriter._trim_tweet` (the invite link). -/
def short_promo : Text := DISCORD_INVITE_LINK

/-- Python `t[:n]` for an `int` bound `n` (negative bounds clip from the
end), as used by `_trim_tweet` when the reserved length exceeds 280. -/
def pyTakeInt (t : Text) (n : Int) : Text :=
  if 0 ≤ n then t.take n.toNat else t.take (t.length - (-n).toNat)

/-- Python `t.rsplit(' ', 1)[0]` when `' ' in t`: everything before the last
space. -/
def dropAfterLastSpace (t : Text) : Text :=
  ((t.reverse.dropWhile (fun c => !(c = ' '))).drop 1).reverse

/-- Python `t.endswith(('!', '.', '?'))`. -/
def endsWithTerminal (t : Text) : Bool :=
  match t.getLast? with
  | some c => c = '!' || c = '.' || c = '?'
  | none => false

/-- `AIWriter._trim_tweet`: truncate the analysis to the budget left by the
short promo/hashtags (and slip link), back off to the last space, append an
ellipsis unless the text already ends in terminal punctuation, reassemble;
if still over 280, rebuild from a 150-character prefix; finally hard-clip to
280 characters. -/
def trim_tweet (analysis : Text) (slip_link : Option Text) : Text :=
  let reserved : Int := (short_promo.length : Int) + short_hashtags.length + 6 +
    (match slip_link with
     | some l => (l.length : Int) + 5
     | none => 0)
  let max_analysis_len : Int := 280 - reserved
  let analysis1 :=
    if (analysis.length : Int) > max_analysis_len then
      let a := pyTakeInt analysis max_analysis_len
      let a := if containsSub a [' '] then dropAfterLastSpace a else a
      if !endsWithTerminal a then a ++ ("...".toList) else a
    else analysis
  let nl2 : Text := ['\n', '\n']
  let tweet :=
    match slip_link with
    | some l => analysis1 ++ nl2 ++ l ++ nl2 ++ short_promo ++ nl2 ++ short_hashtags
    | none => analysis1 ++ nl2 ++ short_promo ++ nl2 ++ short_hashtags
  let tweet :=
    if tweet.length > 280 then
      analysis1.take 150 ++ ("...".toList) ++ nl2 ++ short_promo ++ nl2 ++ short_hashtags
    else tweet
  tweet.take 280

/-- `AIWriter.format_tweet` after its content sources are resolved: the
`analysis` argument stands for whichever of the explicit analysis, the
slip-derived tweet, the AI text analysis or the generic filler the source
selected, and `hashtags`/`promo` for the randomized `get_hashtags` /
`get_promo_text` outputs — the claim quantifies over all of them.  Parts are
joined with newlines and trimming kicks in over 280 characters. -/
def format_tweet (analysis promo hashtags : Text) (slip_link : Option Text) :
    Text :=
  let tweet_parts : List Text :=
    [analysis] ++
    (match slip_link with
     | some l => [[], "🎟️ ".toList ++ l]
     | none => []) ++
    [[], promo, [], hashtags]
  let tweet := List.intercalate ['\n'] tweet_parts
  if tweet.length > 280 then trim_tweet analysis slip_link else tweet

/-! ### Regular-posts orchestration (`src/main.py`, `SusSweatShopBot.run`) -/

/-- Observable outcome of one `SusSweatShopBot.run` execution: how many
posts counted as successful, and whether `ImageFetcher.cleanup` (delete and
recreate the scratch-image directory) was reached. -/
structure RunOutcome where
  successful_posts : Nat
  cleanup_called : Bool
deriving DecidableEq

/-- Control flow of `SusSweatShopBot.run`: abort (without cleanup) when a
non-dry run fails credential verification; abort (without cleanup) when no
unposted picks were fetched; otherwise process up to `max_posts` picks — a
per-pick exception (`raises`) is caught and skips the pick, a dry run counts
every processed pick, a posting failure (`post_ok = false`) is skipped — and
finally call cleanup.  External effects (fetching, AI, posting, the ledger
write on success) are abstracted into the `picks`, `raises` and `post_ok`
parameters. -/
def runRegular (creds_ok dry_run : Bool) (picks : List Pick)
    (raises post_ok : Pick → Bool) (max_posts : Nat) : RunOutcome :=
  if !dry_run && !creds_ok then ⟨0, false⟩
  else if picks.isEmpty then ⟨0, false⟩
  else
    let n := (picks.take max_posts).foldl
      (fun acc p =>
        if raises p then acc
        else if dry_run then acc + 1
        else if post_ok p then acc + 1
        else acc) 0
    ⟨n, true⟩

/-! ### Spec-side predicate for the refinement comparison of claim C3 -/

/-- The keyword set exactly as the spec sentence lists it (`unit(s)` read as
the two words `unit`, `units`); note it lacks the source's extra entries
`"+"`, `"-"`, `"vs."` and `"potd"`. -/
def claimed_keywords : List Text :=
  (["over", "under", "ml", "moneyline", "spread", "pts", "points", "rebounds",
    "assists", "vs", "@", "parlay", "straight", "pick", "lock", "play", "bet",
    "unit", "units"]).map String.toList

/-- The betting-like predicate as the spec words it (for comparison with
`is_valid_pick`): an American-odds-style substring `[+-]N` with
`N ∈ [100, 499]`, or a case-insensitive occurrence of one of
`claimed_keywords`. -/
def isBettingLike_claimed (content : Text) : Prop :=
  (∃ n : Nat, 100 ≤ n ∧ n ≤ 499 ∧
    (('+' :: (toString n).toList) <:+: content ∨
     ('-' :: (toString n).toList) <:+: content)) ∨
  ∃ kw ∈ claimed_keywords, kw <:+: toLowerText content

/-! ### Helper lemmas -/

/-- `containsSub` decides list-infix containment. -/
theorem containsSub_iff (hay needle : Text) :
    containsSub hay needle = true ↔ needle <:+: hay := by
  simp [containsSub]

/-- `mark_as_posted` keeps at most 100 ids. -/
theorem mark_as_posted_length_le (loaded : List Nat) (pick_id : Nat) :
    (mark_as_posted loaded pick_id).length ≤ 100 := by
  unfold mark_as_posted lastN
  rw [List.length_drop]
  omega

/-- The id just marked always survives the truncation of `mark_as_posted`. -/
theorem mem_mark_as_posted (loaded : List Nat) (pick_id : Nat) :
    pick_id ∈ mark_as_posted loaded pick_id := by
  unfold mark_as_posted lastN
  have hlen : (loaded ++ [pick_id]).length = loaded.length + 1 := by simp
  rw [hlen]
  have hle : loaded.length + 1 - 100 ≤ loaded.length := by omega
  rw [List.drop_append_of_le_length hle]
  exact List.mem_append_right _ (List.mem_singleton_self _)

/-- Every pick returned by `get_unposted_picks` has an id outside the loaded
ledger. -/
theorem get_unposted_excludes (channel : List Message) (posted : List Nat)
    (limit : Nat) :
    ∀ p ∈ get_unposted_picks channel posted limit, p.id ∉ posted := by
  intro p hp
  have hp1 := List.mem_of_mem_take hp
  have hp2 := (List.mem_filter).1 hp1
  simpa [List.contains] using hp2.2

/-- A pick produced by `extract_pick?` carries the source message's id. -/
theorem extract_pick?_id {msg : Message} {p : Pick}
    (h : extract_pick? msg = some p) : p.id = msg.id := by
  unfold extract_pick? at h
  dsimp only at h
  split at h
  · exact absurd h (by simp)
  · split at h
    · cases h
      rfl
    · exact absurd h (by simp)

/-- `grade_moneyline` only ever produces one of three outcome records. -/
theorem grade_moneyline_cases (p : Text) (g : Game) :
    grade_moneyline p g = ⟨false, .PENDING, .low⟩ ∨
    grade_moneyline p g = ⟨true, .WIN, .high⟩ ∨
    grade_moneyline p g = ⟨true, .LOSS, .high⟩ := by
  unfold grade_moneyline
  dsimp only
  split
  · exact Or.inl rfl
  · split
    · exact Or.inr (Or.inl rfl)
    · exact Or.inr (Or.inr rfl)

/-- `grade_total` only ever produces one of four outcome records. -/
theorem grade_total_cases (p : Text) (g : Game) :
    grade_total p g = ⟨false, .PENDING, .low⟩ ∨
    grade_total p g = ⟨true, .PUSH, .high⟩ ∨
    grade_total p g = ⟨true, .WIN, .high⟩ ∨
    grade_total p g = ⟨true, .LOSS, .high⟩ := by
  unfold grade_total
  dsimp only
  split
  · exact Or.inl rfl
  · split_ifs <;> simp

/-- `grade_pick` only ever produces one of five outcome records. -/
theorem grade_pick_cases (p : Text) (g? : Option Game) :
    grade_pick p g? = ⟨false, .PENDING, .low⟩ ∨
    grade_pick p g? = ⟨false, .PENDING, .medium⟩ ∨
    grade_pick p g? = ⟨true, .WIN, .high⟩ ∨
    grade_pick p g? = ⟨true, .LOSS, .high⟩ ∨
    grade_pick p g? = ⟨true, .PUSH, .high⟩ := by
  match g? with
  | none => exact Or.inl rfl
  | some g =>
      unfold grade_pick
      dsimp only
      split
      · exact Or.inl rfl
      · split
        · rcases grade_moneyline_cases p g with h | h | h <;> rw [h] <;> simp
        · split
          · rcases grade_total_cases p g with h | h | h | h <;> rw [h] <;> simp
          · split
            · exact Or.inr (Or.inl rfl)
            · exact Or.inl rfl

/-- `pickedSide` never reports both sides picked. -/
theorem pickedSide_cases (pl : Text) (h a : Team) :
    pickedSide pl h a = (false, false) ∨ pickedSide pl h a = (true, false) ∨
    pickedSide pl h a = (false, true) := by
  unfold pickedSide
  split
  · exact Or.inl rfl
  · split
    · exact Or.inr (Or.inl rfl)
    · split
      · exact Or.inr (Or.inr rfl)
      · exact Or.inl rfl

/-- A `take` never exceeds its bound. -/
theorem length_take_le (l : Text) (n : Nat) : (l.take n).length ≤ n := by
  simp [List.length_take]

/-- Evaluation of `grade_moneyline` once the picked side is known. -/
theorem grade_moneyline_eval (p : Text) (g : Game) (s : Bool × Bool)
    (hs : pickedSide (toLowerText p) g.home_team g.away_team = s) :
    grade_moneyline p g =
      if !s.1 && !s.2 then ⟨false, .PENDING, .low⟩
      else if s.1 && decide (g.home_team.score > g.away_team.score) ||
              s.2 && !decide (g.home_team.score > g.away_team.score) then
        ⟨true, .WIN, .high⟩
      else ⟨true, .LOSS, .high⟩ := by
  unfold grade_moneyline
  dsimp only
  rw [hs]

/-! ### Claim theorems -/

/-- C1 counterexample: a completed game with EQUAL scores (100-100) and a
moneyline pick on the AWAY side ("Lakers ML", away team Los Angeles Lakers)
grades as `WIN`, not as the `LOSS` the claim requires for an equal-score
game. -/
theorem C1_counterexample :
    grade_pick ("Lakers ML".toList)
      (some ⟨true, ⟨"Boston Celtics".toList, 100⟩,
             ⟨"Los Angeles Lakers".toList, 100⟩⟩) =
      ⟨true, .WIN, .high⟩ := by decide

/-- C1 (amended): for a moneyline pick on a completed game whose picked side
is identified by the alias scan, grading returns — with `graded = true` and
high confidence in both branches — `WIN` iff the home side was picked and
the home team strictly outscored the away team, or the away side was picked
and the home team did NOT strictly outscore the away team; `LOSS`
otherwise.  (A tie thus grades `LOSS` for a home pick but `WIN` for an away
pick.) -/
theorem C1_moneyline_grading (pick : Text) (g : Game)
    (hcomp : g.completed = true)
    (hml : containsSub (toLowerText pick) ("ml".toList) = true ∨
           containsSub (toLowerText pick) ("moneyline".toList) = true)
    (hside : pickedSide (toLowerText pick) g.home_team g.away_team ≠ (false, false)) :
    grade_pick pick (some g) =
      if (pickedSide (toLowerText pick) g.home_team g.away_team).1 = true then
        (if g.home_team.score > g.away_team.score then
           (⟨true, .WIN, .high⟩ : GradeResult)
         else ⟨true, .LOSS, .high⟩)
      else
        (if g.home_team.score > g.away_team.score then
           (⟨true, .LOSS, .high⟩ : GradeResult)
         else ⟨true, .WIN, .high⟩) := by
  have hc : (containsSub (toLowerText pick) ("ml".toList) ||
             containsSub (toLowerText pick) ("moneyline".toList)) = true := by
    rcases hml with h | h
    · rw [h]
      rfl
    · rw [h, Bool.or_true]
  have hroute : grade_pick pick (some g) = grade_moneyline pick g := by
    unfold grade_pick
    dsimp only
    rw [hcomp, hc]
    simp
  rw [hroute]
  rcases pickedSide_cases (toLowerText pick) g.home_team g.away_team with hs | hs | hs
  · exact absurd hs hside
  · rw [grade_moneyline_eval pick g _ hs]
    by_cases hw : g.away_team.score < g.home_team.score
    · simp [hs, hw]
    · simp [hs, hw]
  · rw [grade_moneyline_eval pick g _ hs]
    by_cases hw : g.away_team.score < g.home_team.score
    · simp [hs, hw]
    · simp [hs, hw]

/-- C1 witness: "lakers ml" on a completed game the home Lakers won 110-100
grades `WIN` with high confidence. -/
theorem C1_witness :
    grade_pick ("lakers ml".toList)
      (some ⟨true, ⟨"Los Angeles Lakers".toList, 110⟩,
             ⟨"Boston Celtics".toList, 100⟩⟩) =
      ⟨true, .WIN, .high⟩ := by
  have h := C1_moneyline_grading ("lakers ml".toList)
    ⟨true, ⟨"Los Angeles Lakers".toList, 110⟩, ⟨"Boston Celtics".toList, 100⟩⟩
    rfl (Or.inl (by decide)) (by decide)
  rw [h]
  decide

/-- C2 counterexample: the stored ledger `[0, 1, …, 99]` (id `k` added
`k`-th, so 99 is the most recently added and 0 the oldest).  The load order
`[99, 0, 1, …, 98]` is an admissible `list(set(...))` linearization, and
marking the new id 100 then evicts 99 — the newest pre-existing id — while
keeping the oldest id 0, and the persisted result differs from the "most
recent 100 of stored ++ [new]" the claim describes. -/
theorem C2_counterexample :
    validLoad (List.range 100) (99 :: List.range 99) ∧
    99 ∉ mark_as_posted (99 :: List.range 99) 100 ∧
    0 ∈ mark_as_posted (99 :: List.range 99) 100 ∧
    mark_as_posted (99 :: List.range 99) 100 ≠
      lastN 100 (List.range 100 ++ [100]) := by
  refine ⟨⟨by decide, by decide, by decide⟩, by decide, by decide, by decide⟩

/-- C2 (amended): after any `mark_as_posted` call the persisted ledger holds
at most 100 ids and the id just marked is present; which OTHER ids survive
an eviction is not guaranteed, because the stored ids are reloaded through
an unordered Python set before truncation. -/
theorem C2_ledger_bound (loaded : List Nat) (pick_id : Nat) :
    (mark_as_posted loaded pick_id).length ≤ 100 ∧
    pick_id ∈ mark_as_posted loaded pick_id :=
  ⟨mark_as_posted_length_le loaded pick_id, mem_mark_as_posted loaded pick_id⟩

/-- C3 counterexample: the text "potd" is accepted by the code's filter
(`"potd"` is in the source keyword list) but satisfies neither disjunct of
the claim's characterisation (no `[+-]N` substring, none of the claimed
keywords). -/
theorem C3_counterexample :
    is_valid_pick ("potd".toList) = true ∧
    ¬ isBettingLike_claimed ("potd".toList) := by
  refine ⟨by decide, ?_⟩
  rintro (⟨n, -, -, h | h⟩ | hkw)
  · exact absurd (h.subset (List.mem_cons_self _ _)) (by decide)
  · exact absurd (h.subset (List.mem_cons_self _ _)) (by decide)
  · exact absurd hkw (by decide)

/-- C3 (amended): `is_valid_pick` accepts a text exactly when it contains an
American-odds-style substring `[+-]N` with `N ∈ [100, 499]`, or its
lowercase form contains one of the SOURCE keyword list `betting_keywords` —
the claimed keyword set extended with `"+"`, `"-"`, `"vs."` and `"potd"`. -/
theorem C3_betting_filter (content : Text) :
    is_valid_pick content = true ↔
      ((∃ n : Nat, 100 ≤ n ∧ n ≤ 499 ∧
         (('+' :: (toString n).toList) <:+: content ∨
          ('-' :: (toString n).toList) <:+: content)) ∨
       ∃ kw ∈ betting_keywords, kw <:+: toLowerText content) := by
  unfold is_valid_pick
  dsimp only
  rw [Bool.or_eq_true, List.any_eq_true, List.any_eq_true]
  constructor
  · rintro (⟨n, hn, hsub⟩ | ⟨kw, hkw, hsub⟩)
    · rw [List.mem_range'_1] at hn
      rw [Bool.or_eq_true] at hsub
      refine Or.inl ⟨n, hn.1, by omega, ?_⟩
      rcases hsub with h | h
      · exact Or.inl ((containsSub_iff _ _).1 h)
      · exact Or.inr ((containsSub_iff _ _).1 h)
    · exact Or.inr ⟨kw, hkw, (containsSub_iff _ _).1 hsub⟩
  · rintro (⟨n, h1, h2, hsub⟩ | ⟨kw, hkw, hsub⟩)
    · refine Or.inl ⟨n, ?_, ?_⟩
      · rw [List.mem_range'_1]
        omega
      · rw [Bool.or_eq_true]
        rcases hsub with h | h
        · exact Or.inl ((containsSub_iff _ _).2 h)
        · exact Or.inr ((containsSub_iff _ _).2 h)
    · exact Or.inr ⟨kw, hkw, (containsSub_iff _ _).2 hsub⟩

/-- C4: for every resolved analysis text, promo text, hashtag text and
optional slip link, the tweet assembled by `format_tweet` is at most 280
characters long. -/
theorem C4_format_tweet_length (analysis promo hashtags : Text)
    (slip_link : Option Text) :
    (format_tweet analysis promo hashtags slip_link).length ≤ 280 := by
  unfold format_tweet
  dsimp only
  split
  · unfold trim_tweet
    dsimp only
    exact length_take_le _ _
  · omega

/-- C5: whenever the total-extraction regex yields a direction and a numeric
line from the pick text, `grade_total` on any game returns — graded, with
high confidence — `PUSH` when the game's total score equals the line, `WIN`
when the total beats the line in the picked direction (over ⇒ strictly
above, under ⇒ strictly below), and `LOSS` otherwise. -/
theorem C5_total_grading (pick : Text) (g : Game) (dir : Bool) (line : ℚ)
    (hext : extractTotal (toLowerText pick) = some (dir, line)) :
    grade_total pick g =
      if (g.total_score : ℚ) = line then (⟨true, .PUSH, .high⟩ : GradeResult)
      else if (dir = true ∧ line < (g.total_score : ℚ)) ∨
              (dir = false ∧ (g.total_score : ℚ) < line) then ⟨true, .WIN, .high⟩
      else ⟨true, .LOSS, .high⟩ := by
  unfold grade_total
  dsimp only
  rw [hext]
  dsimp only
  cases dir
  · by_cases heq : (g.total_score : ℚ) = line
    · simp [heq]
    · by_cases hlt : (g.total_score : ℚ) < line
      · simp [heq, hlt]
      · simp [heq, hlt]
  · by_cases heq : (g.total_score : ℚ) = line
    · simp [heq]
    · by_cases hlt : line < (g.total_score : ℚ)
      · simp [heq, hlt]
      · simp [heq, hlt]

/-- C5 witness: "over 0" against a completed game with total score 1 grades
`WIN` with high confidence. -/
theorem C5_witness :
    grade_total ("over 0".toList) ⟨true, ⟨"a".toList, 1⟩, ⟨"b".toList, 0⟩⟩ =
      ⟨true, .WIN, .high⟩ := by
  have h := C5_total_grading ("over 0".toList)
    ⟨true, ⟨"a".toList, 1⟩, ⟨"b".toList, 0⟩⟩ true (ratOfParts ['0'] []) rfl
  rw [h]
  simp [ratOfParts, parseDigits, Game.total_score]

/-- C6: every outcome of `grade_pick` satisfies the `GradeResult` invariant:
`graded = true` implies the result is `WIN`, `LOSS` or `PUSH`, and a
`PENDING` result implies `graded = false`. -/
theorem C6_grade_result_invariant (pick : Text) (game? : Option Game) :
    ((grade_pick pick game?).graded = true →
      ((grade_pick pick game?).result = .WIN ∨
       (grade_pick pick game?).result = .LOSS ∨
       (grade_pick pick game?).result = .PUSH)) ∧
    ((grade_pick pick game?).result = .PENDING →
      (grade_pick pick game?).graded = false) := by
  rcases grade_pick_cases pick game? with h | h | h | h | h <;> rw [h] <;> decide

/-- C6 witness: a graded concrete pick ("lakers ml" on a completed 110-100
game) indeed lands in {WIN, LOSS, PUSH}. -/
theorem C6_witness :
    (grade_pick ("lakers ml".toList)
      (some ⟨true, ⟨"Los Angeles Lakers".toList, 110⟩,
             ⟨"Boston Celtics".toList, 100⟩⟩)).result = .WIN ∨
    (grade_pick ("lakers ml".toList)
      (some ⟨true, ⟨"Los Angeles Lakers".toList, 110⟩,
             ⟨"Boston Celtics".toList, 100⟩⟩)).result = .LOSS ∨
    (grade_pick ("lakers ml".toList)
      (some ⟨true, ⟨"Los Angeles Lakers".toList, 110⟩,
             ⟨"Boston Celtics".toList, 100⟩⟩)).result = .PUSH :=
  (C6_grade_result_invariant ("lakers ml".toList)
    (some ⟨true, ⟨"Los Angeles Lakers".toList, 110⟩,
           ⟨"Boston Celtics".toList, 100⟩⟩)).1 (by decide)

/-- Sum of the four counters after folding `tallyStep` over a pick list. -/
theorem tally_foldl (lookup : Text → Option Game) (l : List Pick)
    (acc : DailyResults) :
    ((l.foldl (fun acc p =>
        tallyStep acc (grade_pick p.content (lookup p.content)).result) acc).wins +
     (l.foldl (fun acc p =>
        tallyStep acc (grade_pick p.content (lookup p.content)).result) acc).losses +
     (l.foldl (fun acc p =>
        tallyStep acc (grade_pick p.content (lookup p.content)).result) acc).pushes +
     (l.foldl (fun acc p =>
        tallyStep acc (grade_pick p.content (lookup p.content)).result) acc).pending =
      acc.wins + acc.losses + acc.pushes + acc.pending + l.length) ∧
    (l.foldl (fun acc p =>
        tallyStep acc (grade_pick p.content (lookup p.content)).result) acc).total_picks =
      acc.total_picks := by
  induction l generalizing acc with
  | nil => simp
  | cons p t ih =>
      rw [List.foldl_cons]
      rcases ih (tallyStep acc (grade_pick p.content (lookup p.content)).result)
        with ⟨h1, h2⟩
      refine ⟨?_, ?_⟩
      · rw [h1]
        cases (grade_pick p.content (lookup p.content)).result <;>
          simp [tallyStep] <;> omega
      · rw [h2]
        cases (grade_pick p.content (lookup p.content)).result <;> rfl

/-- C7: for every pick list and every game-lookup behaviour, the recap
aggregate satisfies `wins + losses + pushes + pending = total_picks`. -/
theorem C7_daily_results_invariant (picks : List Pick)
    (lookup : Text → Option Game) :
    (get_todays_results picks lookup).wins +
      (get_todays_results picks lookup).losses +
      (get_todays_results picks lookup).pushes +
      (get_todays_results picks lookup).pending =
      (get_todays_results picks lookup).total_picks := by
  unfold get_todays_results
  rcases tally_foldl lookup picks ⟨0, 0, 0, 0, picks.length⟩ with ⟨h1, h2⟩
  rw [h1, h2]
  simp

/-- C8: `get_unposted_picks` never returns a pick whose id is in the loaded
ledger; and after `mark_as_posted pick_id` is persisted, any subsequent
`get_unposted_picks` (under any admissible reload order of the new ledger)
excludes every pick with that id. -/
theorem C8_dedup (channel : List Message) (posted : List Nat) (limit : Nat) :
    (∀ p ∈ get_unposted_picks channel posted limit, p.id ∉ posted) ∧
    (∀ (pick_id : Nat) (loaded2 : List Nat),
      validLoad (mark_as_posted posted pick_id) loaded2 →
      ∀ p ∈ get_unposted_picks channel loaded2 limit, p.id ≠ pick_id) := by
  refine ⟨get_unposted_excludes channel posted limit, ?_⟩
  intro pick_id loaded2 hload p hp heq
  have hmem : pick_id ∈ loaded2 :=
    hload.2.2 pick_id (mem_mark_as_posted posted pick_id)
  have hnot := get_unposted_excludes channel loaded2 limit p hp
  rw [heq] at hnot
  exact hnot hmem

/-- C8 witness: with ledger [5], the returned pick (id 1) is not in the
ledger; after marking 7 (ledger reloads as [5, 7]), a returned pick's id
differs from 7. -/
theorem C8_witness :
    ((⟨1, ['m', 'l']⟩ : Pick).id ∉ ([5] : List Nat)) ∧
    (⟨1, ['m', 'l']⟩ : Pick).id ≠ 7 :=
  ⟨(C8_dedup [⟨1, ['m', 'l'], false⟩] [5] 5).1 ⟨1, ['m', 'l']⟩ (by decide),
   (C8_dedup [⟨1, ['m', 'l'], false⟩] [5] 5).2 7 [5, 7] (by decide)
     ⟨1, ['m', 'l']⟩ (by decide)⟩

/-- C9 counterexample: a run with valid credentials, not a dry run, that
finds no unposted picks returns before the scratch-image cleanup: the claim
that cleanup is invoked on every regular-posts run regardless of whether
picks were found is false. -/
theorem C9_counterexample :
    (runRegular true false [] (fun _ => false) (fun _ => true) 2).cleanup_called =
      false := rfl

/-- C9 (amended): the regular-posts run reaches the scratch-image cleanup
exactly when it gets past its two early returns — i.e. when the run is a dry
run or credentials verify, AND at least one unposted pick was fetched;
per-pick exceptions and posting failures never skip the cleanup. -/
theorem C9_cleanup (creds_ok dry_run : Bool) (picks : List Pick)
    (raises post_ok : Pick → Bool) (max_posts : Nat) :
    (runRegular creds_ok dry_run picks raises post_ok max_posts).cleanup_called =
      true ↔
      ((dry_run = true ∨ creds_ok = true) ∧ picks ≠ []) := by
  unfold runRegular
  dsimp only
  split
  · next h =>
      simp only [Bool.and_eq_true, Bool.not_eq_true'] at h
      simp [h.1, h.2]
  · next h =>
      simp only [Bool.and_eq_true, Bool.not_eq_true'] at h
      split
      · next hemp =>
          rw [List.isEmpty_iff] at hemp
          simp [hemp]
      · next hemp =>
          rw [List.isEmpty_iff] at hemp
          constructor
          · intro _
            refine ⟨?_, hemp⟩
            rcases Bool.eq_false_or_eq_true dry_run with hd | hd
            · exact Or.inl hd
            · rcases Bool.eq_false_or_eq_true creds_ok with hc | hc
              · exact Or.inr hc
              · exact absurd ⟨hd, hc⟩ h
          · intro _
            rfl

/-- C10: `get_unposted_picks` only ever draws from the 20 most recent
channel messages: a betting-like, never-posted message that is not among the
20 newest (no message in that window shares its id) is never returned,
whatever `limit` is requested. -/
theorem C10_fetch_window (channel : List Message) (posted : List Nat)
    (limit : Nat) (m : Message) (hm : m ∈ channel)
    (hfresh : ∀ m2 ∈ channel.take 20, m2.id ≠ m.id)
    (hbetting : is_valid_pick (stripText m.content) = true)
    (hunposted : m.id ∉ posted)
    (p : Pick) (hp : p ∈ get_unposted_picks channel posted limit) :
    p.id ≠ m.id := by
  have hp1 := List.mem_of_mem_take hp
  have hp2 := (List.mem_filter.1 hp1).1
  unfold extract_picks at hp2
  rcases List.mem_filterMap.1 hp2 with ⟨msg, hmsg, hex⟩
  have hid := extract_pick?_id hex
  rw [hid]
  have htake : msg ∈ channel.take 20 := by
    have hmin : min 20 100 = 20 := rfl
    unfold get_recent_messages at hmsg
    rwa [hmin] at hmsg
  exact hfresh msg htake

/-- C10 witness: in a 21-message channel (newest first, ids 0–20, all
betting-like, none posted), requesting up to 25 picks never returns the
21st-newest message (id 20). -/
theorem C10_witness : (0 : Nat) ≠ 20 :=
  C10_fetch_window
    ((List.range 21).map (fun i => (⟨i, ['m', 'l'], false⟩ : Message)))
    [] 25 ⟨20, ['m', 'l'], false⟩ (by decide) (by decide) (by decide)
    (by decide) ⟨0, ['m', 'l']⟩ (by decide)

end SusSweatShop
